import Mathlib

/-!
Verification development for the Agronova prototype (`src/App.jsx`).

The component keeps two pieces of state: a list of products and a
"blockchain" (a list of blocks chained by pseudo-hashes).  This file embeds
those data structures and the functions that act on them — `pseudoHash`,
`makeBlock`, `appendBlock`, `listProduct`, `orderProduct`, `resetBlockchain`,
the Farmer form's `validateForm` guard, and the Consumer trace lookup — and
proves or refutes the specification's claims about them.

Sources of non-determinism in the JavaScript (`Date` timestamps and
`Math.random()` draws) are modelled as explicit string parameters: every call
site that invokes `nowISO()` or draws randomness receives the corresponding
value as an argument.  JavaScript numbers are modelled as `Int`; no claim
depends on fractional or floating-point behaviour.  Strings are modelled as
Lean strings; `charCodeAt` is modelled by `Char.toNat`, which agrees with
UTF-16 code units on all Basic-Multilingual-Plane characters (every string
the app hashes is in the BMP).
-/

namespace Agronova

/-- One step of the `pseudoHash` accumulator loop:
`h = (h * 31 + input.charCodeAt(i)) >>> 0`, i.e. arithmetic modulo 2^32. -/
def hashStep (h : Nat) (c : Char) : Nat :=
  (h * 31 + c.toNat) % 4294967296

/-- Lowercase hexadecimal rendering of a natural number (`h.toString(16)`). -/
def toHexLower (n : Nat) : String :=
  String.mk (Nat.toDigits 16 n)

/-- `s.padStart(8, "0")`. -/
def padStart8 (s : String) : String :=
  String.mk (List.replicate (8 - s.length) '0') ++ s

/-- `s.toUpperCase()`, character by character (agrees with JavaScript on the
ASCII hexadecimal strings it is applied to). -/
def jsToUpper (s : String) : String :=
  String.mk (s.data.map Char.toUpper)

/-- `pseudoHash(input)` from the source.  The accumulator loop is followed by
`(h.toString(16).padStart(8, "0") + Math.random().toString(16).slice(2, 10)).toUpperCase()`.
The `Math.random().toString(16).slice(2, 10)` draw is the explicit `rand`
parameter. -/
def pseudoHash (input rand : String) : String :=
  let h := input.data.foldl hashStep 0
  jsToUpper (padStart8 (toHexLower h) ++ rand)

/-- Product status strings used by the source: "LISTED" and "SOLD". -/
inductive Status where
  | LISTED
  | SOLD
deriving Repr, DecidableEq

/-- An actor object as built by the source: farmer objects carry a `village`
key, broker objects (`{ id: user.id, name: user.name }`) do not; the `Option`
distinguishes a present key from an absent one for `JSON.stringify`. -/
structure Actor where
  id : String
  name : String
  village : Option String
deriving Repr, DecidableEq

/-- A product record.  `broker` is absent (`none`) until `orderProduct`
spreads `{ ...p, status: "SOLD", broker }` onto it. -/
structure Product where
  id : String
  name : String
  quantityKg : Int
  basePricePerKg : Int
  farmer : Actor
  status : Status
  broker : Option Actor
deriving Repr, DecidableEq

/-- The tagged block payloads the source constructs: `GENESIS`, `LISTING`
and `TRANSFER` objects.  The `transfer` fields mirror
`{ type, product: { id, name, quantityKg }, from, to, pricePerKg }`;
`from`/`to` are named `sender`/`receiver` because `from` is a Lean keyword. -/
inductive BlockData where
  | genesis (message : String)
  | listing (product : Product) (actor : Actor)
  | transfer (productId productName : String) (quantityKg : Int)
      (sender receiver : Actor) (pricePerKg : Int)
deriving Repr, DecidableEq

/-- A block, mirroring `{ index, timestamp, prevHash, data, hash }`. -/
structure Block where
  index : Nat
  timestamp : String
  prevHash : String
  data : BlockData
  hash : String
deriving Repr, DecidableEq

/-- JSON string escaping as performed by `JSON.stringify` on the quote and
backslash characters (the only escapable characters the app's data can
contain besides control characters, which never occur). -/
def jsonEscape (s : String) : String :=
  s.data.foldl
    (fun acc c =>
      if c = '"' then acc ++ "\\\""
      else if c = '\\' then acc ++ "\\\\"
      else acc.push c)
    ""

/-- A JSON string literal. -/
def jstr (s : String) : String :=
  "\"" ++ jsonEscape s ++ "\""

/-- A JSON number literal for an integral JavaScript number. -/
def jint (n : Int) : String :=
  toString n

/-- `JSON.stringify` of a status string. -/
def statusJson : Status → String
  | .LISTED => "\"LISTED\""
  | .SOLD => "\"SOLD\""

/-- `JSON.stringify` of an actor object, keys in insertion order
(`id`, `name`, then `village` when present). -/
def serializeActor (a : Actor) : String :=
  "\x7b\"id\":" ++ jstr a.id ++ ",\"name\":" ++ jstr a.name ++
    (match a.village with
      | some v => ",\"village\":" ++ jstr v
      | none => "") ++ "\x7d"

/-- `JSON.stringify` of a product object, keys in insertion order
(`id`, `name`, `quantityKg`, `basePricePerKg`, `farmer`, `status`, and
`broker` appended last when present, matching the `{ ...p, status, broker }`
spread in `orderProduct`). -/
def serializeProduct (p : Product) : String :=
  "\x7b\"id\":" ++ jstr p.id ++ ",\"name\":" ++ jstr p.name ++
    ",\"quantityKg\":" ++ jint p.quantityKg ++
    ",\"basePricePerKg\":" ++ jint p.basePricePerKg ++
    ",\"farmer\":" ++ serializeActor p.farmer ++
    ",\"status\":" ++ statusJson p.status ++
    (match p.broker with
      | some b => ",\"broker\":" ++ serializeActor b
      | none => "") ++ "\x7d"

/-- `JSON.stringify(data)` for the three payload shapes the source builds. -/
def serializeData : BlockData → String
  | .genesis msg =>
      "\x7b\"type\":\"GENESIS\",\"message\":" ++ jstr msg ++ "\x7d"
  | .listing p a =>
      "\x7b\"type\":\"LISTING\",\"product\":" ++ serializeProduct p ++
        ",\"actor\":" ++ serializeActor a ++ "\x7d"
  | .transfer pid pname qty sender receiver price =>
      "\x7b\"type\":\"TRANSFER\",\"product\":\x7b\"id\":" ++ jstr pid ++
        ",\"name\":" ++ jstr pname ++ ",\"quantityKg\":" ++ jint qty ++
        "\x7d,\"from\":" ++ serializeActor sender ++
        ",\"to\":" ++ serializeActor receiver ++
        ",\"pricePerKg\":" ++ jint price ++ "\x7d"

/-- `makeBlock(prevHash, data)`.  The source calls `nowISO()` twice — once
inside the hash input and once for the stored `timestamp` field — so the two
draws are separate parameters `tsHash` and `tsField`.  The caller later
overwrites `index`; `makeBlock` itself sets it to 0. -/
def makeBlock (prevHash : String) (data : BlockData)
    (tsHash tsField rand : String) : Block :=
  { index := 0
    timestamp := tsField
    prevHash := prevHash
    data := data
    hash := pseudoHash (prevHash ++ serializeData data ++ tsHash) rand }

/-- The genesis block built both by the `chain` initial state and by
`resetBlockchain`: fixed sentinel `prevHash`, index 0, and a hash of the
literal string `"GENESIS"` (not of the block's contents). -/
def genesisBlock (ts rand : String) : Block :=
  { index := 0
    timestamp := ts
    prevHash := "0xGENESIS"
    data := .genesis "Agronova Chain Initialized"
    hash := pseudoHash "GENESIS" rand }

/-- `appendBlock(data)`: link the new block to the current tail's hash and
give it the tail's index plus one.  On an empty chain the JavaScript would
fault reading `last.hash`; that case is unreachable (every reachable chain
is non-empty) and is modelled as a no-op. -/
def appendBlockChain (data : BlockData) (tsHash tsField rand : String)
    (c : List Block) : List Block :=
  match c.getLast? with
  | none => c
  | some last =>
      c ++ [{ makeBlock last.hash data tsHash tsField rand with
                index := last.index + 1 }]

/-- A toast feedback message (`setToast({ message, type })`).  The delayed
`setTimeout(() => setToast(null), 3000)` clearing is not modelled; each
operation's immediate post-state carries the toast it just set. -/
inductive ToastType where
  | success
  | error
deriving Repr, DecidableEq

/-- The toast object. -/
structure Toast where
  message : String
  type : ToastType
deriving Repr, DecidableEq

/-- The component state the claims are about: the `products` and `chain`
`useState` cells plus the `toast` feedback cell. -/
structure AppState where
  products : List Product
  chain : List Block
  toast : Option Toast
deriving Repr, DecidableEq

/-- The fields of a logged-in user that the modelled operations read. -/
structure User where
  id : String
  name : String
  village : Option String
  role : String
deriving Repr, DecidableEq

/-- The two demo seed products (`seedProducts` in the source).  The
`_hashTemp` scratch field the chain initializer writes onto these objects is
not modelled: it is written only after each seed product is serialized and is
never read by any serialized or claimed-about code path. -/
def seedFarmer1 : Actor :=
  { id := "F-001", name := "Ravi Kumar", village := some "Narsinghpur" }

/-- Second seed farmer. -/
def seedFarmer2 : Actor :=
  { id := "F-002", name := "Sita Devi", village := some "Rewa" }

/-- First seed product. -/
def seedProduct1 : Product :=
  { id := "AGR-1001", name := "Organic Tomatoes", quantityKg := 120
    basePricePerKg := 28, farmer := seedFarmer1, status := .LISTED
    broker := none }

/-- Second seed product. -/
def seedProduct2 : Product :=
  { id := "AGR-1002", name := "Basmati Rice", quantityKg := 500
    basePricePerKg := 62, farmer := seedFarmer2, status := .LISTED
    broker := none }

/-- `seedProducts`. -/
def seedProducts : List Product :=
  [seedProduct1, seedProduct2]

/-- The seed-block construction inside the `chain` initial state: the
`seedProducts.map` with the `_hashTemp` side channel links each seed block to
the hash of the block built in the previous iteration (the `|| genesis.hash`
fallback is dead code because hashes are non-empty, hence truthy), and sets
`b.index = i + 1`.  `ent i` supplies the two `nowISO()` draws and the random
draw of the `makeBlock` call for seed product `i`. -/
def buildSeedBlocks (ent : Nat → String × String × String) :
    List Product → String → Nat → List Block
  | [], _, _ => []
  | p :: ps, prevHash, i =>
      let e := ent i
      let b := { makeBlock prevHash (.listing p p.farmer) e.1 e.2.1 e.2.2 with
                   index := i + 1 }
      b :: buildSeedBlocks ent ps b.hash (i + 1)

/-- The initial `chain` state: a genesis block followed by one LISTING block
per seed product. -/
def initialChain (gts grand : String) (ent : Nat → String × String × String) :
    List Block :=
  let g := genesisBlock gts grand
  g :: buildSeedBlocks ent seedProducts g.hash 0

/-- The initial component state: `products = seedProducts`,
`chain = initialChain`, no toast. -/
def initialState (gts grand : String)
    (ent : Nat → String × String × String) : AppState :=
  { products := seedProducts
    chain := initialChain gts grand ent
    toast := none }

/-- `Number(x)` applied to a form field: `none` models the empty string
(`Number("") = 0`), `some v` a numeric string with value `v`. -/
def jsNumber : Option Int → Int
  | none => 0
  | some v => v

/-- The argument object of `listProduct({ id, name, quantityKg,
basePricePerKg, farmer })`.  The quantity and price arrive as raw form
strings, modelled as `Option Int` (see `jsNumber`). -/
structure ListingArgs where
  id : String
  name : String
  quantityKg : Option Int
  basePricePerKg : Option Int
  farmer : Actor
deriving Repr, DecidableEq

/-- The `newProd` object `listProduct` builds: `Number`-converted quantity
and price, and `farmer.id` overridden by the logged-in user's id
(`farmer: { ...farmer, id: user.id }`). -/
def newProduct (u : User) (args : ListingArgs) : Product :=
  { id := args.id
    name := args.name
    quantityKg := jsNumber args.quantityKg
    basePricePerKg := jsNumber args.basePricePerKg
    farmer := { args.farmer with id := u.id }
    status := .LISTED
    broker := none }

/-- The `actor` object of the appended LISTING block
(`{ ...farmer, id: user.id }`). -/
def listingActor (u : User) (args : ListingArgs) : Actor :=
  { args.farmer with id := u.id }

/-- `listProduct`: prepends the new product to `products`, appends a LISTING
block whose actor also has the overridden id, and sets a success toast.  No
validation happens here. -/
def listProduct (u : User) (args : ListingArgs)
    (tsHash tsField rand : String) (s : AppState) : AppState :=
  { products := newProduct u args :: s.products
    chain := appendBlockChain
        (.listing (newProduct u args) (listingActor u args))
        tsHash tsField rand s.chain
    toast := some { message := "Product listed successfully!"
                    type := .success } }

/-- `orderProduct({ productId, broker })`: after the `window.confirm` gate
(the `confirmed` parameter), it unconditionally maps the products list,
marking any product with the given id SOLD and overwriting its `broker`;
it then looks the product up in the pre-update list, silently returns if
absent, and otherwise appends a TRANSFER block and sets a success toast. -/
def orderProduct (confirmed : Bool) (productId : String) (broker : Actor)
    (tsHash tsField rand : String) (s : AppState) : AppState :=
  if confirmed = false then s
  else
    let products1 := s.products.map fun p =>
      if p.id == productId then { p with status := .SOLD, broker := some broker }
      else p
    match s.products.find? (fun p => p.id == productId) with
    | none => { s with products := products1 }
    | some prod =>
        { products := products1
          chain := appendBlockChain
              (.transfer prod.id prod.name prod.quantityKg prod.farmer broker
                prod.basePricePerKg)
              tsHash tsField rand s.chain
          toast := some { message := "Order placed successfully!"
                          type := .success } }

/-- The Farmer form state relevant to validation and submission.  Quantity
and price are raw input strings, modelled as `Option Int`. -/
structure ListingForm where
  id : String
  name : String
  quantityKg : Option Int
  basePricePerKg : Option Int
  farmerName : String
  village : String
deriving Repr, DecidableEq

/-- The `!form.quantityKg || form.quantityKg <= 0` check of `validateForm`
on a raw field value: the empty string is falsy (invalid), and a numeric
string is invalid exactly when its value is non-positive. -/
def validPositive : Option Int → Bool
  | none => false
  | some v => 0 < v

/-- `validateForm` of the Farmer view: valid iff the name is non-empty and
quantity and price are positive. -/
def validateForm (f : ListingForm) : Bool :=
  f.name ≠ "" && validPositive f.quantityKg && validPositive f.basePricePerKg

/-- The Farmer "Upload to Blockchain" click handler: returns unchanged when
`validateForm` fails, otherwise calls `listProduct` with
`farmer = { id: user.id, name: form.farmerName, village: form.village || "—" }`. -/
def submitListing (u : User) (f : ListingForm)
    (tsHash tsField rand : String) (s : AppState) : AppState :=
  if validateForm f then
    listProduct u
      { id := f.id
        name := f.name
        quantityKg := f.quantityKg
        basePricePerKg := f.basePricePerKg
        farmer := { id := u.id, name := f.farmerName
                    village := some (if f.village = "" then "—" else f.village) } }
      tsHash tsField rand s
  else s

/-- `resetBlockchain` of the Admin view: after the confirm gate, replace the
chain with a single fresh genesis block, clear the products, and set a
success toast. -/
def resetBlockchain (confirmed : Bool) (ts rand : String) (s : AppState) :
    AppState :=
  if confirmed = false then s
  else
    { products := []
      chain := [genesisBlock ts rand]
      toast := some { message := "Blockchain reset successfully!"
                      type := .success } }

/-- `b.data?.product?.id` of the Consumer trace filter: GENESIS payloads
have no `product` key; LISTING and TRANSFER payloads expose the product id. -/
def dataProductId : BlockData → Option String
  | .genesis _ => none
  | .listing p _ => some p.id
  | .transfer pid _ _ _ _ _ => some pid

/-- `b.data?.type === "LISTING"`. -/
def isListingData : BlockData → Bool
  | .listing _ _ => true
  | _ => false

/-- `b.data?.type === "TRANSFER"`. -/
def isTransferData : BlockData → Bool
  | .transfer _ _ _ _ _ _ => true
  | _ => false

/-- `chain.filter((b) => b.data?.product?.id === query)`. -/
def relatedBlocks (chain : List Block) (query : String) : List Block :=
  chain.filter fun b => dataProductId b.data == some query

/-- The `{ listing, transfer }` record of the Consumer trace lookup. -/
structure TraceRecord where
  listing : Option Block
  transfer : Option Block
deriving Repr, DecidableEq

/-- The Consumer `record` computation: `null` for an empty query or when no
block references the queried id, otherwise the first LISTING and the first
TRANSFER block among the related blocks. -/
def consumerRecord (chain : List Block) (query : String) : Option TraceRecord :=
  if query = "" then none
  else
    let related := relatedBlocks chain query
    if related.isEmpty then none
    else some { listing := related.find? fun b => isListingData b.data
                transfer := related.find? fun b => isTransferData b.data }

/-- Modelled from the spec: the hash recomputation of `Ledger.verify`
(§4.2), which is absent from the source.  Recomputes a block's hash "from
its contents" the way `makeBlock` computed it — over
`prevHash + JSON.stringify(data) + timestamp` — with `rand` standing for the
`Math.random()` draw the recomputation's `pseudoHash` call would make. -/
def recomputeHash (b : Block) (rand : String) : String :=
  pseudoHash (b.prevHash ++ serializeData b.data ++ b.timestamp) rand

/-- Modelled from the spec: the scanning loop of `Ledger.verify` (§4.2),
absent from the source.  Walks the chain from position 1, checking that each
block's `prevHash` equals the predecessor's `hash` and that each block's
`hash` matches recomputation; stops at the first mismatch, reporting its
index.  `rands i` is the random draw of the recomputation at position `i`. -/
def verifyFrom (rands : Nat → String) :
    Block → List Block → Nat → Option Nat
  | _, [], _ => none
  | prev, b :: rest, i =>
      if b.prevHash == prev.hash && b.hash == recomputeHash b (rands i) then
        verifyFrom rands b rest (i + 1)
      else some i

/-- Modelled from the spec: `Ledger.verify` (§4.2), absent from the source.
Checks the genesis block's sentinel `prevHash` and its hash recomputation,
then scans the rest of the chain; returns the offending index on the first
mismatch, `none` if the whole chain checks out. -/
def verifyChain (rands : Nat → String) (c : List Block) : Option Nat :=
  match c with
  | [] => none
  | g :: rest =>
      if g.prevHash == "0xGENESIS" && g.hash == recomputeHash g (rands 0) then
        verifyFrom rands g rest 1
      else some 0

/-- Modelled from the spec: the boolean result of `verify()` (§4.2). -/
def verifyOk (rands : Nat → String) (c : List Block) : Bool :=
  (verifyChain rands c).isNone

/-- Modelled from the spec: the linkage component of `Ledger.verify` alone —
the genesis-sentinel check and the `previousHash`-against-predecessor-`hash`
scan, without hash recomputation. -/
def verifyLinksFrom : Block → List Block → Nat → Option Nat
  | _, [], _ => none
  | prev, b :: rest, i =>
      if b.prevHash == prev.hash then verifyLinksFrom b rest (i + 1)
      else some i

/-- Modelled from the spec: the linkage scan of `verify` over a whole chain. -/
def verifyLinks : List Block → Option Nat
  | [] => none
  | g :: rest =>
      if g.prevHash == "0xGENESIS" then verifyLinksFrom g rest 1
      else some 0

/-- The chain states reachable in the component: the seeded initial chain,
arbitrary `appendBlock` calls, and the admin reset. -/
inductive ChainReachable : List Block → Prop where
  | init (gts grand : String) (ent : Nat → String × String × String) :
      ChainReachable (initialChain gts grand ent)
  | append (d : BlockData) (tsHash tsField rand : String) (c : List Block) :
      ChainReachable c → ChainReachable (appendBlockChain d tsHash tsField rand c)
  | reset (ts rand : String) (c : List Block) :
      ChainReachable c → ChainReachable [genesisBlock ts rand]

/-- The component states reachable through the UI operations: the seeded
initial state, Farmer form submissions, Broker orders, and Admin resets. -/
inductive Reachable : AppState → Prop where
  | init (gts grand : String) (ent : Nat → String × String × String) :
      Reachable (initialState gts grand ent)
  | list (u : User) (f : ListingForm) (tsHash tsField rand : String)
      (s : AppState) : Reachable s →
      Reachable (submitListing u f tsHash tsField rand s)
  | order (confirmed : Bool) (pid : String) (broker : Actor)
      (tsHash tsField rand : String) (s : AppState) : Reachable s →
      Reachable (orderProduct confirmed pid broker tsHash tsField rand s)
  | reset (confirmed : Bool) (ts rand : String) (s : AppState) :
      Reachable s → Reachable (resetBlockchain confirmed ts rand s)

/-- Pairwise linkage of a chain: each block's `prevHash` is the previous
block's `hash` and each index is the previous index plus one. -/
def chainLinked : List Block → Bool
  | [] => true
  | [_] => true
  | a :: b :: rest =>
      (b.prevHash == a.hash && b.index == a.index + 1) && chainLinked (b :: rest)

/-- Well-formedness of a chain: non-empty, the head is a genesis-shaped
block (sentinel `prevHash`, index 0), and the chain is pairwise linked. -/
def chainWF (c : List Block) : Bool :=
  match c with
  | [] => false
  | g :: _ => (g.prevHash == "0xGENESIS" && g.index == 0) && chainLinked c

/-! ### Concrete demo values

Fixed choices for the timestamp and `Math.random()` draws, used to evaluate
the model on concrete runs.  The random suffixes are lowercase hexadecimal,
as `Math.random().toString(16).slice(2, 10)` produces. -/

/-- A constant entropy stream for the seed-block construction. -/
def demoEnt : Nat → String × String × String :=
  fun _ => ("2025-01-01T00:00:00.000Z", "2025-01-01T00:00:00.000Z", "5e5e5e5e")

/-- A concrete initial component state. -/
def demoInit : AppState :=
  initialState "2025-01-01T00:00:00.000Z" "00000000" demoEnt

/-- The seed farmer user `farmer1`. -/
def userF1 : User :=
  { id := "F-001", name := "Ravi Kumar", village := some "Narsinghpur"
    role := "farmer" }

/-- The seed farmer user `farmer2`. -/
def userF2 : User :=
  { id := "F-002", name := "Sita Devi", village := some "Rewa"
    role := "farmer" }

/-- The broker actor object the Broker view builds
(`{ id: user.id, name: user.name }`, no `village` key). -/
def brokerB : Actor :=
  { id := "B-001", name := "GreenSupply Pvt Ltd", village := none }

/-- The same broker with an edited display name (the Broker form lets the
name be edited before ordering). -/
def brokerB2 : Actor :=
  { id := "B-001", name := "Edited Broker Name", village := none }

/-- A concrete state in which product AGR-1001 has been ordered once. -/
def soldState : AppState :=
  orderProduct true "AGR-1001" brokerB "2025-01-03T00:00:00.000Z"
    "2025-01-03T00:00:00.000Z" "cccccccc" demoInit

/-- A concrete state in which the already-SOLD product AGR-1001 is ordered a
second time, by a differently-named broker. -/
def resoldState : AppState :=
  orderProduct true "AGR-1001" brokerB2 "2025-01-04T00:00:00.000Z"
    "2025-01-04T00:00:00.000Z" "dddddddd" soldState

/-- A concrete chain obtained by one `appendBlock` on the seeded chain. -/
def demoAppendChain : List Block :=
  appendBlockChain (.listing seedProduct1 seedFarmer1)
    "2025-01-02T00:00:00.000Z" "2025-01-02T00:00:00.000Z" "77777777"
    (initialChain "2025-01-01T00:00:00.000Z" "00000000" demoEnt)

/-- A Farmer form with a non-positive quantity. -/
def badForm : ListingForm :=
  { id := "AGR-5000", name := "Bad", quantityKg := some 0
    basePricePerKg := some 10, farmerName := "Ravi Kumar"
    village := "Narsinghpur" }

/-- `listProduct` arguments with a non-positive quantity. -/
def badArgs : ListingArgs :=
  { id := "AGR-5000", name := "Bad", quantityKg := some 0
    basePricePerKg := some 10, farmer := seedFarmer1 }

/-- A Farmer form whose (randomly generated) product id collides with the
seed product AGR-1001 — the id generator `AGR-${1000 + ⌊rand * 9000⌋}` can
produce it. -/
def dupForm : ListingForm :=
  { id := "AGR-1001", name := "Fake Tomatoes", quantityKg := some 10
    basePricePerKg := some 20, farmerName := "Sita Devi", village := "Rewa" }

/-- The state after submitting the colliding listing. -/
def dupState : AppState :=
  submitListing userF2 dupForm "2025-01-05T00:00:00.000Z"
    "2025-01-05T00:00:00.000Z" "12341234" demoInit

/-- A Farmer form with a fresh, non-colliding product id. -/
def freshForm : ListingForm :=
  { id := "AGR-7777", name := "Fresh", quantityKg := some 5
    basePricePerKg := some 7, farmerName := "Sita Devi", village := "Rewa" }

/-- `listProduct` arguments whose `farmer.id` differs from the logged-in
user's id, to exhibit the override. -/
def sampleArgs : ListingArgs :=
  { id := "AGR-8888", name := "Sample", quantityKg := some 3
    basePricePerKg := some 4
    farmer := { id := "F-999", name := "Somebody Else"
                village := some "Elsewhere" } }

/-! ### Chain linkage lemmas -/

/-- A non-empty list has a last element. -/
theorem getLast?_cons_exists (a : Block) (l : List Block) :
    ∃ x, (a :: l).getLast? = some x := by
  induction l generalizing a with
  | nil => exact ⟨a, rfl⟩
  | cons b l ih =>
      obtain ⟨x, hx⟩ := ih b
      exact ⟨x, by rw [List.getLast?_cons_cons, hx]⟩

/-- Appending a correctly linked block preserves pairwise linkage. -/
theorem chainLinked_concat :
    ∀ (c : List Block) (last b : Block), chainLinked c = true →
      c.getLast? = some last → b.prevHash = last.hash →
      b.index = last.index + 1 → chainLinked (c ++ [b]) = true := by
  intro c
  induction c with
  | nil =>
      intro last b _ hlast _ _
      simp at hlast
  | cons a c ih =>
      intro last b hl hlast hph hidx
      cases c with
      | nil =>
          simp only [List.getLast?_singleton, Option.some.injEq] at hlast
          subst hlast
          simp [chainLinked, hph, hidx]
      | cons a' c' =>
          rw [List.getLast?_cons_cons] at hlast
          simp only [chainLinked, Bool.and_eq_true] at hl
          have htail := ih last b hl.2 hlast hph hidx
          simp only [List.cons_append, chainLinked, Bool.and_eq_true]
          exact ⟨hl.1, by simpa using htail⟩

/-- `appendBlockChain` on a chain with last element `last` appends the block
built by `makeBlock` from `last.hash`, reindexed to `last.index + 1`. -/
theorem appendBlockChain_eq (d : BlockData) (tsHash tsField rand : String)
    (c : List Block) (last : Block) (hlast : c.getLast? = some last) :
    appendBlockChain d tsHash tsField rand c
      = c ++ [{ makeBlock last.hash d tsHash tsField rand with
                  index := last.index + 1 }] := by
  unfold appendBlockChain
  rw [hlast]

/-- `appendBlock` preserves chain well-formedness. -/
theorem chainWF_append (d : BlockData) (tsHash tsField rand : String)
    (c : List Block) (h : chainWF c = true) :
    chainWF (appendBlockChain d tsHash tsField rand c) = true := by
  cases c with
  | nil => simp [chainWF] at h
  | cons g rest =>
      obtain ⟨last, hlast⟩ := getLast?_cons_exists g rest
      rw [appendBlockChain_eq _ _ _ _ _ _ hlast]
      simp only [chainWF, Bool.and_eq_true] at h
      have hlink := chainLinked_concat (g :: rest) last
        { makeBlock last.hash d tsHash tsField rand with index := last.index + 1 }
        h.2 hlast rfl rfl
      simp only [List.cons_append, chainWF, Bool.and_eq_true]
      exact ⟨h.1, by simpa using hlink⟩

/-- The seed-block construction yields a pairwise linked chain when started
from a block whose hash is the link source and whose index is the running
index. -/
theorem buildSeed_linked (ent : Nat → String × String × String) :
    ∀ (ps : List Product) (b : Block) (i : Nat), b.index = i →
      chainLinked (b :: buildSeedBlocks ent ps b.hash i) = true := by
  intro ps
  induction ps with
  | nil => intro b i _; rfl
  | cons p ps ih =>
      intro b i hi
      simp only [buildSeedBlocks, chainLinked, Bool.and_eq_true]
      refine ⟨⟨by simp [makeBlock], by simp [hi]⟩, ?_⟩
      exact ih _ (i + 1) rfl

/-- The seeded initial chain is well-formed. -/
theorem chainWF_initialChain (gts grand : String)
    (ent : Nat → String × String × String) :
    chainWF (initialChain gts grand ent) = true := by
  simp only [initialChain, chainWF, Bool.and_eq_true]
  exact ⟨⟨by simp [genesisBlock], by simp [genesisBlock]⟩,
    buildSeed_linked ent seedProducts (genesisBlock gts grand) 0 rfl⟩

/-- A freshly reset chain is well-formed. -/
theorem chainWF_reset (ts rand : String) :
    chainWF [genesisBlock ts rand] = true := rfl

/-- Every reachable chain is well-formed. -/
theorem chainReachable_wf (c : List Block) (h : ChainReachable c) :
    chainWF c = true := by
  induction h with
  | init gts grand ent => exact chainWF_initialChain gts grand ent
  | append d tsHash tsField rand c _ ih => exact chainWF_append _ _ _ _ _ ih
  | reset ts rand c _ _ => exact chainWF_reset ts rand

/-- The chain of every reachable component state is a reachable chain. -/
theorem chainReachable_of_reachable (s : AppState) (h : Reachable s) :
    ChainReachable s.chain := by
  induction h with
  | init gts grand ent => exact ChainReachable.init gts grand ent
  | list u f tsHash tsField rand s _ ih =>
      unfold submitListing
      split
      · exact ChainReachable.append _ _ _ _ _ ih
      · exact ih
  | order confirmed pid broker tsHash tsField rand s _ ih =>
      unfold orderProduct
      split
      · exact ih
      · split
        · exact ih
        · exact ChainReachable.append _ _ _ _ _ ih
  | reset confirmed ts rand s _ ih =>
      unfold resetBlockchain
      split
      · exact ih
      · exact ChainReachable.reset _ _ _ ih

/-! ### Linkage-scan and index lemmas -/

/-- The linkage scan finds nothing on a pairwise linked tail. -/
theorem verifyLinksFrom_of_linked :
    ∀ (rest : List Block) (b : Block) (i : Nat),
      chainLinked (b :: rest) = true → verifyLinksFrom b rest i = none := by
  intro rest
  induction rest with
  | nil => intro b i _; rfl
  | cons b' rest' ih =>
      intro b i hl
      simp only [chainLinked, Bool.and_eq_true] at hl
      simp only [verifyLinksFrom, hl.1.1, if_pos]
      exact ih b' (i + 1) hl.2

/-- The linkage scan finds nothing on a well-formed chain. -/
theorem verifyLinks_of_wf (c : List Block) (h : chainWF c = true) :
    verifyLinks c = none := by
  cases c with
  | nil => rfl
  | cons g rest =>
      simp only [chainWF, Bool.and_eq_true] at h
      simp only [verifyLinks, h.1.1, if_pos]
      exact verifyLinksFrom_of_linked rest g 1 h.2

/-- In a pairwise linked chain, every block's index is at most the last
block's index. -/
theorem index_le_getLast_of_linked :
    ∀ (c : List Block) (last : Block), chainLinked c = true →
      c.getLast? = some last → ∀ x ∈ c, x.index ≤ last.index := by
  intro c
  induction c with
  | nil => intro last _ _ x hx; simp at hx
  | cons a c ih =>
      intro last hl hlast x hx
      cases c with
      | nil =>
          simp only [List.getLast?_singleton, Option.some.injEq] at hlast
          subst hlast
          simp only [List.mem_singleton] at hx
          subst hx
          exact Nat.le_refl _
      | cons a' c' =>
          rw [List.getLast?_cons_cons] at hlast
          simp only [chainLinked, Bool.and_eq_true] at hl
          have ha' : a'.index = a.index + 1 := by
            have := hl.1.2
            simpa using this
          rcases List.mem_cons.mp hx with hxa | hxtail
          · subst hxa
            have h1 : a'.index ≤ last.index :=
              ih last hl.2 hlast a' (List.mem_cons_self a' c')
            omega
          · exact ih last hl.2 hlast x hxtail

/-! ### Products-list lemmas -/

/-- The SOLD/broker update of `orderProduct` never changes a product's id. -/
theorem update_preserves_id (pid : String) (br : Actor) (p : Product) :
    (if p.id == pid then { p with status := .SOLD, broker := some br }
     else p).id = p.id := by
  split <;> rfl

/-- The mapped products list of `orderProduct` has the same ids. -/
theorem map_update_ids (pid : String) (br : Actor) (ps : List Product) :
    ((ps.map fun p =>
        if p.id == pid then { p with status := .SOLD, broker := some br }
        else p).map fun p => p.id) = ps.map fun p => p.id := by
  rw [List.map_map]
  exact List.map_congr_left fun p _ => update_preserves_id pid br p

/-- When no product matches the ordered id, the `orderProduct` map is the
identity on the products list. -/
theorem map_update_eq_of_find?_none (pid : String) (br : Actor)
    (ps : List Product)
    (h : ps.find? (fun p => p.id == pid) = none) :
    (ps.map fun p =>
        if p.id == pid then { p with status := .SOLD, broker := some br }
        else p) = ps := by
  induction ps with
  | nil => rfl
  | cons p ps ih =>
      by_cases hp : (p.id == pid) = true
      · rw [List.find?_cons_of_pos ps hp] at h
        exact absurd h (by simp)
      · rw [List.find?_cons_of_neg ps hp] at h
        simp only [List.map_cons, if_neg hp]
        rw [ih h]

/-! ### Trace-lookup invariants -/

/-- For every query, if the related blocks contain a TRANSFER then they also
contain an earlier-indexed LISTING, as picked by the Consumer lookup's
`find?` calls. -/
def RelatedOrdered (c : List Block) : Prop :=
  ∀ q t, (relatedBlocks c q).find? (fun b => isTransferData b.data) = some t →
    ∃ l, (relatedBlocks c q).find? (fun b => isListingData b.data) = some l ∧
      l.index < t.index

/-- Every product in a products list has a LISTING block for its id on the
chain. -/
def ProductsListed (ps : List Product) (c : List Block) : Prop :=
  ∀ p ∈ ps, ∃ b ∈ c,
    isListingData b.data = true ∧ dataProductId b.data = some p.id

/-- A LISTING payload is not a TRANSFER payload. -/
theorem not_transfer_of_listing (d : BlockData)
    (h : isListingData d = true) : isTransferData d = false := by
  cases d <;> simp_all [isListingData, isTransferData]

/-- Appending a block that references the queried id extends the related
list at the end. -/
theorem relatedBlocks_append_pos (c : List Block) (b : Block) (q : String)
    (hp : (dataProductId b.data == some q) = true) :
    relatedBlocks (c ++ [b]) q = relatedBlocks c q ++ [b] := by
  unfold relatedBlocks
  rw [List.filter_append]
  congr 1
  rw [List.filter_cons]
  simp [hp]

/-- Appending a block that does not reference the queried id leaves the
related list unchanged. -/
theorem relatedBlocks_append_neg (c : List Block) (b : Block) (q : String)
    (hp : ¬ (dataProductId b.data == some q) = true) :
    relatedBlocks (c ++ [b]) q = relatedBlocks c q := by
  unfold relatedBlocks
  rw [List.filter_append]
  rw [List.filter_cons]
  simp [hp]

/-- The Consumer lookup on a non-empty related list returns the first
LISTING and the first TRANSFER among the related blocks. -/
theorem consumerRecord_eq_some (c : List Block) (q : String) (hq : q ≠ "")
    (hne : relatedBlocks c q ≠ []) :
    consumerRecord c q = some
      { listing := (relatedBlocks c q).find? fun b => isListingData b.data
        transfer := (relatedBlocks c q).find? fun b => isTransferData b.data } := by
  simp only [consumerRecord, if_neg hq]
  have hempty : (relatedBlocks c q).isEmpty = false := by
    simpa [List.isEmpty_iff] using hne
  simp [hempty]

/-- Inversion of the Consumer lookup: a `some` result forces a non-empty
query, a non-empty related list, and the `find?` shape of the record. -/
theorem consumerRecord_some_inv (c : List Block) (q : String)
    (r : TraceRecord) (h : consumerRecord c q = some r) :
    q ≠ "" ∧ relatedBlocks c q ≠ [] ∧
      r = { listing := (relatedBlocks c q).find? fun b => isListingData b.data
            transfer := (relatedBlocks c q).find? fun b => isTransferData b.data } := by
  by_cases hq : q = ""
  · simp [consumerRecord, hq] at h
  · refine ⟨hq, ?_, ?_⟩
    · intro hnil
      simp [consumerRecord, hq, hnil] at h
    · by_cases hne : relatedBlocks c q = []
      · simp [consumerRecord, hq, hne] at h
      · rw [consumerRecord_eq_some c q hq hne] at h
        exact (Option.some.injEq _ _ ▸ h.symm)

/-- Appending a non-TRANSFER block preserves the trace ordering invariant. -/
theorem relatedOrdered_append_nontransfer (c : List Block) (b : Block)
    (hb : isTransferData b.data = false) (h : RelatedOrdered c) :
    RelatedOrdered (c ++ [b]) := by
  intro q t ht
  by_cases hp : (dataProductId b.data == some q) = true
  · rw [relatedBlocks_append_pos c b q hp] at ht ⊢
    rw [List.find?_append] at ht
    have hnb : ([b].find? fun x => isTransferData x.data) = none := by
      rw [List.find?_cons_of_neg _ (by simp [hb])]
      rfl
    rw [hnb, Option.or_none] at ht
    obtain ⟨l, hl, hlt⟩ := h q t ht
    refine ⟨l, ?_, hlt⟩
    rw [List.find?_append, hl]
    rfl
  · rw [relatedBlocks_append_neg c b q hp] at ht ⊢
    exact h q t ht

/-- Every block produced by the seed construction carries a LISTING payload
for one of the seed products. -/
theorem mem_buildSeedBlocks (ent : Nat → String × String × String) :
    ∀ (ps : List Product) (ph : String) (i : Nat) (b : Block),
      b ∈ buildSeedBlocks ent ps ph i →
      ∃ p ∈ ps, b.data = .listing p p.farmer := by
  intro ps
  induction ps with
  | nil => intro ph i b hb; simp [buildSeedBlocks] at hb
  | cons p ps ih =>
      intro ph i b hb
      simp only [buildSeedBlocks, List.mem_cons] at hb
      rcases hb with hb | hb
      · exact ⟨p, List.mem_cons_self p ps, by subst hb; rfl⟩
      · obtain ⟨p', hp', hd⟩ := ih _ _ b hb
        exact ⟨p', List.mem_cons_of_mem p hp', hd⟩

/-- Every seed product gets a seed LISTING block. -/
theorem buildSeed_covers (ent : Nat → String × String × String) :
    ∀ (ps : List Product) (ph : String) (i : Nat) (p : Product), p ∈ ps →
      ∃ b ∈ buildSeedBlocks ent ps ph i, b.data = .listing p p.farmer := by
  intro ps
  induction ps with
  | nil => intro ph i p hp; simp at hp
  | cons p0 ps ih =>
      intro ph i p hp
      rcases List.mem_cons.mp hp with hp | hp
      · subst hp
        exact ⟨_, List.mem_cons_self _ _, rfl⟩
      · obtain ⟨b, hb, hd⟩ := ih _ (i + 1) p hp
        exact ⟨b, List.mem_cons_of_mem _ hb, hd⟩

/-- No block of the seeded initial chain is a TRANSFER. -/
theorem initialChain_no_transfer (gts grand : String)
    (ent : Nat → String × String × String) :
    ∀ b ∈ initialChain gts grand ent, isTransferData b.data = false := by
  intro b hb
  simp only [initialChain, List.mem_cons] at hb
  rcases hb with hb | hb
  · rw [hb]; rfl
  · obtain ⟨p, _, hd⟩ := mem_buildSeedBlocks ent _ _ _ b hb
    rw [hd]; rfl

/-- A chain without TRANSFER blocks satisfies the ordering invariant
vacuously. -/
theorem relatedOrdered_of_no_transfer (c : List Block)
    (h : ∀ b ∈ c, isTransferData b.data = false) : RelatedOrdered c := by
  intro q t ht
  have hpt := List.find?_some ht
  have hmem : t ∈ c :=
    List.mem_of_mem_filter (List.mem_of_find?_eq_some ht)
  simp only [h t hmem] at hpt
  exact absurd hpt (by simp)

/-! ### Operation shape lemmas and the main invariant -/

/-- A well-formed chain is non-empty. -/
theorem chainWF_ne_nil (c : List Block) (h : chainWF c = true) : c ≠ [] := by
  cases c with
  | nil => simp [chainWF] at h
  | cons a l => simp

/-- A well-formed chain has a last element. -/
theorem exists_getLast_of_wf (c : List Block) (h : chainWF c = true) :
    ∃ last, c.getLast? = some last := by
  cases c with
  | nil => simp [chainWF] at h
  | cons a l => exact getLast?_cons_exists a l

/-- A well-formed chain is pairwise linked. -/
theorem chainLinked_of_wf (c : List Block) (h : chainWF c = true) :
    chainLinked c = true := by
  cases c with
  | nil => simp [chainWF] at h
  | cons a l =>
      simp only [chainWF, Bool.and_eq_true] at h
      exact h.2

/-- A valid submission is exactly a `listProduct` call with the form data
and the village fallback `form.village || "—"`. -/
theorem submitListing_valid_eq (u : User) (f : ListingForm)
    (tsHash tsField rand : String) (s : AppState)
    (h : validateForm f = true) :
    submitListing u f tsHash tsField rand s
      = listProduct u
          { id := f.id
            name := f.name
            quantityKg := f.quantityKg
            basePricePerKg := f.basePricePerKg
            farmer := { id := u.id, name := f.farmerName
                        village := some (if f.village = "" then "—"
                                         else f.village) } }
          tsHash tsField rand s := by
  unfold submitListing
  rw [if_pos h]

/-- An invalid submission leaves the state unchanged. -/
theorem submitListing_invalid_eq (u : User) (f : ListingForm)
    (tsHash tsField rand : String) (s : AppState)
    (h : ¬ validateForm f = true) :
    submitListing u f tsHash tsField rand s = s := by
  unfold submitListing
  rw [if_neg h]

/-- `orderProduct` with an id that matches no product is the identity: the
products map rebuilds the same list, no block is appended, and no toast
(hence no error feedback of any kind) is produced. -/
theorem orderProduct_unknown_eq (pid : String) (br : Actor)
    (tsHash tsField rand : String) (s : AppState)
    (h : s.products.find? (fun p => p.id == pid) = none) :
    orderProduct true pid br tsHash tsField rand s = s := by
  unfold orderProduct
  rw [if_neg (by simp)]
  simp only [h]
  rw [map_update_eq_of_find?_none pid br s.products h]

/-- `orderProduct` on a found product: marks matching products SOLD with the
broker attached, appends a TRANSFER block, and sets a success toast. -/
theorem orderProduct_found_eq (pid : String) (br : Actor)
    (tsHash tsField rand : String) (s : AppState) (prod : Product)
    (h : s.products.find? (fun p => p.id == pid) = some prod) :
    orderProduct true pid br tsHash tsField rand s
      = { products := s.products.map fun p =>
            if p.id == pid then { p with status := .SOLD, broker := some br }
            else p
          chain := appendBlockChain
              (.transfer prod.id prod.name prod.quantityKg prod.farmer br
                prod.basePricePerKg)
              tsHash tsField rand s.chain
          toast := some { message := "Order placed successfully!"
                          type := .success } } := by
  unfold orderProduct
  rw [if_neg (by simp)]
  simp only [h]

/-- The main invariant: in every reachable state, every product's id has a
LISTING block on the chain, and the Consumer lookup's first TRANSFER for any
query is preceded (in block index) by its first LISTING. -/
theorem inv_of_reachable (s : AppState) (h : Reachable s) :
    ProductsListed s.products s.chain ∧ RelatedOrdered s.chain := by
  induction h with
  | init gts grand ent =>
      constructor
      · intro p hp
        obtain ⟨b, hb, hd⟩ :=
          buildSeed_covers ent seedProducts (genesisBlock gts grand).hash 0 p hp
        exact ⟨b, List.mem_cons_of_mem _ hb, by rw [hd]; rfl, by rw [hd]; rfl⟩
      · exact relatedOrdered_of_no_transfer _
          (initialChain_no_transfer gts grand ent)
  | list u f tsHash tsField rand s hs ih =>
      by_cases hv : validateForm f = true
      · rw [submitListing_valid_eq u f tsHash tsField rand s hv]
        have hwf := chainReachable_wf s.chain (chainReachable_of_reachable s hs)
        obtain ⟨last, hlast⟩ := exists_getLast_of_wf s.chain hwf
        simp only [listProduct, appendBlockChain_eq _ _ _ _ _ _ hlast]
        constructor
        · intro p hp
          rcases List.mem_cons.mp hp with hp | hp
          · subst hp
            exact ⟨_, List.mem_append_right _ (List.mem_singleton.mpr rfl),
              rfl, rfl⟩
          · obtain ⟨b, hb, h1, h2⟩ := ih.1 p hp
            exact ⟨b, List.mem_append_left _ hb, h1, h2⟩
        · exact relatedOrdered_append_nontransfer _ _ rfl ih.2
      · rw [submitListing_invalid_eq u f tsHash tsField rand s hv]
        exact ih
  | order confirmed pid broker tsHash tsField rand s hs ih =>
      cases confirmed with
      | false => exact ih
      | true =>
          rcases hfind : s.products.find? (fun p => p.id == pid) with _ | prod
          · rw [orderProduct_unknown_eq pid broker tsHash tsField rand s hfind]
            exact ih
          · rw [orderProduct_found_eq pid broker tsHash tsField rand s prod hfind]
            have hwf := chainReachable_wf s.chain (chainReachable_of_reachable s hs)
            obtain ⟨last, hlast⟩ := exists_getLast_of_wf s.chain hwf
            have hpidmem : prod ∈ s.products := List.mem_of_find?_eq_some hfind
            have hpid : prod.id = pid := by
              have := List.find?_some hfind
              simpa [beq_iff_eq] using this
            simp only [appendBlockChain_eq _ _ _ _ _ _ hlast]
            set B : Block :=
              { makeBlock last.hash
                  (.transfer prod.id prod.name prod.quantityKg prod.farmer
                    broker prod.basePricePerKg) tsHash tsField rand with
                  index := last.index + 1 } with hB
            constructor
            · intro p hp
              obtain ⟨p0, hp0, hp0eq⟩ := List.mem_map.mp hp
              have hid : p.id = p0.id := by
                rw [← hp0eq]; exact update_preserves_id pid broker p0
              obtain ⟨b, hb, h1, h2⟩ := ih.1 p0 hp0
              exact ⟨b, List.mem_append_left _ hb, h1, by rw [hid]; exact h2⟩
            · intro q t ht
              by_cases hq : (dataProductId B.data == some q) = true
              · have hqeq : prod.id = q := by
                  have : dataProductId B.data = some prod.id := rfl
                  rw [this] at hq
                  simpa [beq_iff_eq] using hq
                rw [relatedBlocks_append_pos s.chain B q hq] at ht ⊢
                rw [List.find?_append] at ht
                rcases hfr : (relatedBlocks s.chain q).find?
                    (fun b => isTransferData b.data) with _ | t0
                · rw [hfr] at ht
                  rw [Option.none_or] at ht
                  rw [List.find?_cons_of_pos _ (by rfl)] at ht
                  have htB : t = B := by
                    simpa using ht.symm
                  obtain ⟨lb, hlb, hlb1, hlb2⟩ := ih.1 prod hpidmem
                  have hlbrel : lb ∈ relatedBlocks s.chain q :=
                    List.mem_filter.mpr ⟨hlb, by rw [hlb2, hqeq]; simp⟩
                  have hsome : ((relatedBlocks s.chain q).find?
                      (fun b => isListingData b.data)).isSome :=
                    List.find?_isSome.mpr ⟨lb, hlbrel, hlb1⟩
                  obtain ⟨l0, hl0⟩ := Option.isSome_iff_exists.mp hsome
                  have hl0mem : l0 ∈ s.chain :=
                    List.mem_of_mem_filter (List.mem_of_find?_eq_some hl0)
                  have hl0le : l0.index ≤ last.index :=
                    index_le_getLast_of_linked s.chain last
                      (chainLinked_of_wf s.chain hwf) hlast l0 hl0mem
                  refine ⟨l0, ?_, ?_⟩
                  · rw [List.find?_append, hl0]; rfl
                  · rw [htB]
                    simpa using Nat.lt_succ_of_le hl0le
                · rw [hfr] at ht
                  have htt0 : t = t0 := by
                    simpa using ht.symm
                  subst htt0
                  obtain ⟨l, hl, hlt⟩ := ih.2 q t hfr
                  refine ⟨l, ?_, hlt⟩
                  rw [List.find?_append, hl]
                  rfl
              · rw [relatedBlocks_append_neg s.chain B q hq] at ht ⊢
                exact ih.2 q t ht
  | reset confirmed ts rand s hs ih =>
      cases confirmed with
      | false => exact ih
      | true =>
          constructor
          · intro p hp
            simp [resetBlockchain] at hp
          · have : (resetBlockchain true ts rand s).chain = [genesisBlock ts rand] := rfl
            rw [this]
            exact relatedOrdered_of_no_transfer _ (by intro b hb; simp at hb; rw [hb]; rfl)

/-! ### Claim theorems -/

/-- C1: For every reachable chain state (the seeded initial chain, after any
sequence of `appendBlock` calls, and after an admin reset), the chain is
well-formed: block 0 has `prevHash` equal to the fixed sentinel
`"0xGENESIS"` and index 0, every later block's `prevHash` equals the hash of
the immediately preceding block, and every block's index is exactly one more
than its predecessor's index (`chainWF` states exactly these conditions). -/
theorem genesis_linkage_invariant (c : List Block) (h : ChainReachable c) :
    chainWF c = true :=
  chainReachable_wf c h

/-- Witness for C1: the invariant evaluated on a concrete seeded chain. -/
theorem genesis_linkage_invariant_witness :
    chainWF (initialChain "2025-01-01T00:00:00.000Z" "00000000" demoEnt)
      = true :=
  genesis_linkage_invariant _ (ChainReachable.init _ _ _)

/-- C2 (amended): after any sequence of appends the linkage component of the
spec's `verify()` finds no mismatch — every block's `previousHash` equals
the predecessor's hash and the genesis sentinel checks out.  The
hash-recomputation component of `verify()` is not satisfied in general (see
the counterexample): stored hashes embed a `Math.random()` draw that is not
recorded in the block, and the genesis hash is computed from the literal
string `"GENESIS"` rather than from the block's contents. -/
theorem verify_linkage_scan_passes (c : List Block) (h : ChainReachable c) :
    verifyLinks c = none :=
  verifyLinks_of_wf c (chainReachable_wf c h)

/-- Witness for C2: the linkage scan on a concrete chain after an append. -/
theorem verify_linkage_scan_passes_witness :
    verifyLinks demoAppendChain = none :=
  verify_linkage_scan_passes _
    (ChainReachable.append _ _ _ _ _ (ChainReachable.init _ _ _))

set_option maxRecDepth 100000 in
/-- Counterexample for C2: on a concrete chain obtained by an append, the
spec's full `verify()` does not return true — it reports offending index 0,
because the genesis block's stored hash (`pseudoHash("GENESIS")`) does not
match recomputation from its contents even when the verifier's random draw
equals the one used at creation — while the linkage scan alone passes. -/
theorem verify_recomputation_fails_cex :
    verifyChain (fun _ => "00000000") demoAppendChain = some 0 ∧
    verifyOk (fun _ => "00000000") demoAppendChain = false ∧
    verifyLinks demoAppendChain = none := by
  refine ⟨by decide, by decide, by decide⟩

/-- C3 (amended): the hash is deterministic once the injected timestamp AND
the internal `Math.random()` draw are both fixed: the hash of `makeBlock` is
a pure function of the previous hash, the payload, the hash-time timestamp
draw and the random draw — it does not even depend on the separately drawn
stored `timestamp` field.  (As the counterexample shows, fixing only
previousHash, payload and timestamp does NOT determine the hash, because
`Math.random()` is called inside `pseudoHash` rather than injected.) -/
theorem hash_deterministic_given_draws (prevHash : String) (d : BlockData)
    (tsHash tsField tsField' rand : String) :
    (makeBlock prevHash d tsHash tsField rand).hash
        = (makeBlock prevHash d tsHash tsField' rand).hash ∧
    (makeBlock prevHash d tsHash tsField rand).hash
        = pseudoHash (prevHash ++ serializeData d ++ tsHash) rand :=
  ⟨rfl, rfl⟩

/-- Counterexample for C3: two `makeBlock` calls with identical
previousHash, payload and timestamps but different internal `Math.random()`
draws produce different hashes, refuting "two calls with identical
previousHash, payload, and timestamp produce the identical hash". -/
theorem hash_not_input_deterministic_cex :
    (makeBlock "H" (.genesis "m") "T" "T" "aaaaaaaa").hash
      ≠ (makeBlock "H" (.genesis "m") "T" "T" "bbbbbbbb").hash := by
  decide

/-- C4 (code bug exhibited): `orderProduct` has no already-SOLD guard.  On a
concrete state where AGR-1001 is already SOLD, ordering it again appends
another TRANSFER block to the chain, reports a success toast (no
InvalidInput/Denied error), and overwrites the recorded broker of the first
sale with the second caller's broker object. -/
theorem order_sold_product_appends_block_bug :
    (soldState.products.find? (fun p => p.id == "AGR-1001")).map
        (fun p => p.status) = some Status.SOLD ∧
    resoldState.chain.length = soldState.chain.length + 1 ∧
    resoldState.toast = some { message := "Order placed successfully!"
                               type := .success } ∧
    (soldState.products.find? (fun p => p.id == "AGR-1001")).map
        (fun p => p.broker) = some (some brokerB) ∧
    (resoldState.products.find? (fun p => p.id == "AGR-1001")).map
        (fun p => p.broker) = some (some brokerB2) := by
  refine ⟨by decide, by decide, by decide, by decide, by decide⟩

/-- C5 (amended): the rejection of non-positive quantity or price happens in
the caller — the Farmer submit handler's `validateForm` guard — not in
`listProduct` itself: submitting the form with `quantityKg ≤ 0` or
`basePricePerKg ≤ 0` leaves the entire state (products list and chain)
unchanged and appends no block.  (`listProduct` called directly performs no
validation; see the counterexample.) -/
theorem submit_rejects_nonpositive_input (u : User) (f : ListingForm)
    (tsHash tsField rand : String) (s : AppState)
    (h : (∃ v, f.quantityKg = some v ∧ v ≤ 0) ∨
         (∃ v, f.basePricePerKg = some v ∧ v ≤ 0)) :
    submitListing u f tsHash tsField rand s = s := by
  have hv : validateForm f = false := by
    rcases h with ⟨v, hv, hle⟩ | ⟨v, hv, hle⟩ <;>
      simp [validateForm, hv, validPositive, not_lt.mpr hle]
  exact submitListing_invalid_eq u f tsHash tsField rand s (by simp [hv])

/-- Witness for C5: a concrete submission with quantity 0 is a no-op. -/
theorem submit_rejects_nonpositive_input_witness :
    submitListing userF1 badForm "T" "T" "00ff00ff" demoInit = demoInit :=
  submit_rejects_nonpositive_input userF1 badForm "T" "T" "00ff00ff" demoInit
    (Or.inl ⟨0, rfl, by decide⟩)

/-- Counterexample for C5: calling `listProduct` itself with
`quantityKg = 0 ≤ 0` does NOT leave the state unchanged — it adds the
product and appends a block, refuting the claim that `listProduct` rejects
non-positive input before any ledger interaction. -/
theorem listProduct_no_validation_cex :
    (listProduct userF1 badArgs "T" "T" "ee11ee11" demoInit).chain.length
        = demoInit.chain.length + 1 ∧
    (listProduct userF1 badArgs "T" "T" "ee11ee11" demoInit).products.length
        = demoInit.products.length + 1 := by
  refine ⟨by decide, by decide⟩

/-- C6 (amended): `orderProduct` with an unknown product id performs no
mutation — the products list and chain are unchanged and no block is
appended — but it does NOT surface a NotFound error: it returns silently,
leaving the state (including the toast feedback channel, the component's
only error-reporting mechanism) exactly as it was. -/
theorem order_unknown_id_silent_noop (pid : String) (br : Actor)
    (tsHash tsField rand : String) (s : AppState)
    (h : s.products.find? (fun p => p.id == pid) = none) :
    orderProduct true pid br tsHash tsField rand s = s :=
  orderProduct_unknown_eq pid br tsHash tsField rand s h

/-- Witness for C6: a concrete unknown-id order is the identity. -/
theorem order_unknown_id_silent_noop_witness :
    orderProduct true "AGR-9999" brokerB "T" "T" "aa00aa00" demoInit
      = demoInit :=
  order_unknown_id_silent_noop "AGR-9999" brokerB "T" "T" "aa00aa00" demoInit
    (by decide)

set_option maxRecDepth 100000 in
/-- Counterexample for C6: on a concrete unknown-id order the toast is left
unset (`none`) — no NotFound (nor any other) error is surfaced to the
caller, refuting the claim's error-surfacing half; products and chain are
unchanged. -/
theorem order_unknown_id_no_error_cex :
    (orderProduct true "ZZZ-404" brokerB "T" "T" "aa00aa00" demoInit).toast
        = none ∧
    (orderProduct true "ZZZ-404" brokerB "T" "T" "aa00aa00" demoInit).products
        = demoInit.products ∧
    (orderProduct true "ZZZ-404" brokerB "T" "T" "aa00aa00" demoInit).chain
        = demoInit.chain := by
  refine ⟨by decide, by decide, by decide⟩

/-- C7: in every reachable state, for a non-empty product id query:
(1) if the blocks referencing the id are non-empty and all LISTING (in
particular, a history of exactly one LISTING block), the Consumer lookup
returns `some` record whose `listing` is the first such block and whose
`transfer` is `null`; (2) if any referencing block is a TRANSFER, the lookup
returns both a LISTING and a TRANSFER block, and the transfer block's index
is strictly greater than the listing block's index. -/
theorem trace_listing_transfer_spec (s : AppState) (q : String)
    (hs : Reachable s) (hq : q ≠ "") :
    ((relatedBlocks s.chain q ≠ []) →
      (∀ b ∈ relatedBlocks s.chain q, isListingData b.data = true) →
      consumerRecord s.chain q
        = some { listing := (relatedBlocks s.chain q).head?
                 transfer := none }) ∧
    (∀ t ∈ relatedBlocks s.chain q, isTransferData t.data = true →
      ∃ r l t', consumerRecord s.chain q = some r ∧ r.listing = some l ∧
        r.transfer = some t' ∧ isListingData l.data = true ∧
        isTransferData t'.data = true ∧ l.index < t'.index) := by
  constructor
  · intro hne hall
    rw [consumerRecord_eq_some s.chain q hq hne]
    have hnotr : (relatedBlocks s.chain q).find?
        (fun b => isTransferData b.data) = none := by
      rw [List.find?_eq_none]
      intro b hb
      simp [not_transfer_of_listing b.data (hall b hb)]
    have hlist : (relatedBlocks s.chain q).find?
        (fun b => isListingData b.data) = (relatedBlocks s.chain q).head? := by
      rcases hrel : relatedBlocks s.chain q with _ | ⟨b0, rest⟩
      · rfl
      · rw [List.find?_cons_of_pos _ (by
          exact hall b0 (by rw [hrel]; exact List.mem_cons_self _ _))]
        rfl
    rw [hnotr, hlist]
  · intro t htmem htr
    have hne : relatedBlocks s.chain q ≠ [] := by
      intro hnil
      rw [hnil] at htmem
      simp at htmem
    have hsome : ((relatedBlocks s.chain q).find?
        (fun b => isTransferData b.data)).isSome :=
      List.find?_isSome.mpr ⟨t, htmem, htr⟩
    obtain ⟨t', ht'⟩ := Option.isSome_iff_exists.mp hsome
    obtain ⟨l, hl, hlt⟩ := (inv_of_reachable s hs).2 q t' ht'
    refine ⟨_, l, t', consumerRecord_eq_some s.chain q hq hne, hl, ht', ?_, ?_, hlt⟩
    · have := List.find?_some hl
      simpa using this
    · have := List.find?_some ht'
      simpa using this

/-- Witness for C7: on the concrete seeded state, tracing AGR-1001 (a
LISTING-only history) returns the first related block as the listing and no
transfer. -/
theorem trace_listing_transfer_spec_witness :
    consumerRecord demoInit.chain "AGR-1001"
      = some { listing := (relatedBlocks demoInit.chain "AGR-1001").head?
               transfer := none } :=
  (trace_listing_transfer_spec demoInit "AGR-1001" (Reachable.init _ _ _)
    (by decide)).1 (by decide) (by decide)

/-- C8: after a confirmed admin reset, regardless of the prior state, the
chain is exactly one fresh genesis block (index 0, sentinel `prevHash`) and
the products list is empty. -/
theorem reset_fresh_genesis (ts rand : String) (s : AppState) :
    resetBlockchain true ts rand s
      = { products := []
          chain := [genesisBlock ts rand]
          toast := some { message := "Blockchain reset successfully!"
                          type := .success } } ∧
    (genesisBlock ts rand).index = 0 ∧
    (genesisBlock ts rand).prevHash = "0xGENESIS" ∧
    (resetBlockchain true ts rand s).chain.length = 1 ∧
    (resetBlockchain true ts rand s).products = [] :=
  ⟨rfl, rfl, rfl, rfl, rfl⟩

/-- C9 (amended): product-id uniqueness holds for the seed state and is
preserved by `orderProduct` (which only rewrites statuses/brokers) and by a
reset (which empties the list); a listing preserves it ONLY when the
submitted id is not already present — `listProduct` performs no duplicate
check, so a colliding id produces duplicates (see the counterexample). -/
theorem product_id_uniqueness_conditional :
    (seedProducts.map fun p => p.id).Nodup ∧
    (∀ (u : User) (f : ListingForm) (tsHash tsField rand : String)
        (s : AppState),
      ((s.products.map fun p => p.id).Nodup) →
      f.id ∉ s.products.map (fun p => p.id) →
      (((submitListing u f tsHash tsField rand s).products.map
          fun p => p.id).Nodup)) ∧
    (∀ (confirmed : Bool) (pid : String) (broker : Actor)
        (tsHash tsField rand : String) (s : AppState),
      ((s.products.map fun p => p.id).Nodup) →
      (((orderProduct confirmed pid broker tsHash tsField rand s).products.map
          fun p => p.id).Nodup)) ∧
    (∀ (ts rand : String) (s : AppState),
      ((resetBlockchain true ts rand s).products.map fun p => p.id).Nodup) := by
  refine ⟨by decide, ?_, ?_, ?_⟩
  · intro u f tsHash tsField rand s hnd hfresh
    by_cases hv : validateForm f = true
    · rw [submitListing_valid_eq u f tsHash tsField rand s hv]
      simp only [listProduct, List.map_cons]
      exact List.nodup_cons.mpr ⟨hfresh, hnd⟩
    · rw [submitListing_invalid_eq u f tsHash tsField rand s hv]
      exact hnd
  · intro confirmed pid broker tsHash tsField rand s hnd
    cases confirmed with
    | false => exact hnd
    | true =>
        rcases hfind : s.products.find? (fun p => p.id == pid) with _ | prod
        · rw [orderProduct_unknown_eq pid broker tsHash tsField rand s hfind]
          exact hnd
        · rw [orderProduct_found_eq pid broker tsHash tsField rand s prod hfind]
          show ((s.products.map fun p =>
              if p.id == pid then { p with status := .SOLD, broker := some broker }
              else p).map fun p => p.id).Nodup
          rw [map_update_ids pid broker s.products]
          exact hnd
  · intro ts rand s
    simp [resetBlockchain]

/-- Witness for C9: listing a fresh id on the seeded state keeps ids
unique. -/
theorem product_id_uniqueness_conditional_witness :
    ((submitListing userF2 freshForm "T" "T" "ab12ab12" demoInit).products.map
        fun p => p.id).Nodup :=
  product_id_uniqueness_conditional.2.1 userF2 freshForm "T" "T" "ab12ab12"
    demoInit (by decide) (by decide)

/-- Counterexample for C9: a reachable state (the seeded state followed by a
valid Farmer submission whose randomly generated id collides with seed
product AGR-1001) whose products list carries two entries with the same id,
refuting unconditional uniqueness. -/
theorem duplicate_product_ids_cex :
    Reachable dupState ∧ ¬ (dupState.products.map fun p => p.id).Nodup :=
  ⟨Reachable.list _ _ _ _ _ _ (Reachable.init _ _ _), by decide⟩

/-- C10: `listProduct` always overrides the farmer id supplied in its
argument with the logged-in user's id: the stored product (prepended at the
head of the products list) has `farmer.id = user.id`, and the appended
LISTING block (now the last block of the chain) carries an actor and a
product farmer with that same id. -/
theorem listProduct_overrides_farmer_id (u : User) (args : ListingArgs)
    (tsHash tsField rand : String) (s : AppState) (h : s.chain ≠ []) :
    ((listProduct u args tsHash tsField rand s).products.head?.map
        fun p => p.farmer.id) = some u.id ∧
    (∃ b, (listProduct u args tsHash tsField rand s).chain.getLast? = some b ∧
      ∃ p a, b.data = BlockData.listing p a ∧ a.id = u.id ∧
        p.farmer.id = u.id) := by
  constructor
  · rfl
  · obtain ⟨last, hlast⟩ : ∃ last, s.chain.getLast? = some last := by
      rcases hc : s.chain with _ | ⟨a, l⟩
      · exact absurd hc h
      · exact getLast?_cons_exists a l
    simp only [listProduct, appendBlockChain_eq _ _ _ _ _ _ hlast]
    refine ⟨_, List.getLast?_concat _, newProduct u args, listingActor u args,
      rfl, rfl, rfl⟩

/-- Witness for C10: a concrete listing whose argument farmer id `F-999`
differs from the logged-in user's id `F-001` is stored and recorded with
`F-001`. -/
theorem listProduct_overrides_farmer_id_witness :
    ((listProduct userF1 sampleArgs "T" "T" "cd34cd34" demoInit).products.head?.map
        fun p => p.farmer.id) = some userF1.id ∧
    (∃ b, (listProduct userF1 sampleArgs "T" "T" "cd34cd34"
        demoInit).chain.getLast? = some b ∧
      ∃ p a, b.data = BlockData.listing p a ∧ a.id = userF1.id ∧
        p.farmer.id = userF1.id) :=
  listProduct_overrides_farmer_id userF1 sampleArgs "T" "T" "cd34cd34" demoInit
    (by decide)

end Agronova
